import Mathlib

/-!
Verification of the schema-descriptor model of the ONNX-interpreter repository
(`src/onnx/src/read_proto/proto_structure.rs`).

The Rust code defines:
  * an enum ` ProtoAnnotation` (Optional / Repeated / Required / Map) with a
    derived `Default` picking `Optional`, and a `FromStr` instance mapping the
    four literal keywords to the variants and anything else to the marker
    error `ParseProtoAnnotationError`;
  * a struct `ProtoAttribute` with fields ` annotation`, `attribute_name`,
    `attribute_type`, a derived `Default`, and an explicit zero-value
    constructor `new`;
  * an enum `KindOf` (Message / OneOf / Enum) with derived `Default` picking
    `Message`;
  * a recursive struct `Proto` holding a `kind_of`, an `attributes` map from
    `i32` tag to `ProtoAttribute`, and a `contents` map from `String` name to
    nested `Proto`, plus a constructor `Proto::new` producing empty maps.

The two `HashMap` fields are modelled as association lists without duplicate
keys; `mapInsert` mirrors `HashMap::insert` (replace the entry when the key is
present, append it otherwise) and `mapGet` mirrors `HashMap::get`.  Tags are
`i32` in Rust; only equality of tags is ever used, so they are modelled as
`Int`.  `Clone` of a `Proto` is a deep copy in Rust (derived `Clone` on a
struct of owned `HashMap`s), so in this pure embedding it is the identity on
values: the clone is a value equal to, and independent of, the original.
-/

namespace ONNXInterp

/-- The four field annotations of `proto_structure.rs` (enum ` ProtoAnnotation`). -/
inductive ProtoAnnotation where
  | Optional
  | Repeated
  | Required
  | Map
deriving DecidableEq, Repr

/-- The `#[default]` marker in the Rust source sits on `Optional`. -/
def ProtoAnnotation.rsDefault : ProtoAnnotation := ProtoAnnotation.Optional

/-- Marker error carrying no payload (`pub struct ParseProtoAnnotationError;`). -/
inductive ParseProtoAnnotationError where
  | mk
deriving DecidableEq, Repr

/-- `impl FromStr for ProtoAnnotation`: the `match` on the input string. -/
def ProtoAnnotation.fromStr (s : String) :
    Except ParseProtoAnnotationError ProtoAnnotation :=
  if s = "optional" then Except.ok ProtoAnnotation.Optional
  else if s = "repeated" then Except.ok ProtoAnnotation.Repeated
  else if s = "required" then Except.ok ProtoAnnotation.Required
  else if s = "map" then Except.ok ProtoAnnotation.Map
  else Except.error ParseProtoAnnotationError.mk

/-- `pub struct ProtoAttribute` with its three fields. -/
structure ProtoAttribute where
  annotation : ProtoAnnotation
  attribute_name : String
  attribute_type : String
deriving DecidableEq, Repr

/-- Rust `String::default()` is the empty string. -/
def stringDefault : String := ""

/-- `ProtoAttribute::new()`: every field is set to `Default::default()`. -/
def ProtoAttribute.new : ProtoAttribute :=
  ⟨ ProtoAnnotation.rsDefault, stringDefault, stringDefault⟩

/-- The `#[derive(Default)]` on `ProtoAttribute`: field-by-field defaults. -/
def ProtoAttribute.derivedDefault : ProtoAttribute :=
  ⟨ ProtoAnnotation.rsDefault, stringDefault, stringDefault⟩

/-- `pub enum KindOf` distinguishing message / one-of / enum definitions. -/
inductive KindOf where
  | Message
  | OneOf
  | Enum
deriving DecidableEq, Repr

/-- The `#[default]` marker in the Rust source sits on `Message`. -/
def KindOf.rsDefault : KindOf := KindOf.Message

/-- `HashMap::insert`: replace the value when the key is already present,
otherwise add the new entry.  The association lists modelling the maps never
hold duplicate keys, so replacing the first hit is exact. -/
def mapInsert {κ α : Type} [DecidableEq κ] (k : κ) (v : α) :
    List (κ × α) → List (κ × α)
  | [] => [(k, v)]
  | (k2, v2) :: rest =>
      if k2 = k then (k, v) :: rest else (k2, v2) :: mapInsert k v rest

/-- `HashMap::get`: the value stored at the key, `none` when absent. -/
def mapGet {κ α : Type} [DecidableEq κ] (k : κ) : List (κ × α) → Option α
  | [] => none
  | (k2, v2) :: rest => if k2 = k then some v2 else mapGet k rest

/-- `pub struct Proto`: the recursive descriptor node of the schema model. -/
inductive Proto where
  | mk (kind_of : KindOf) (attributes : List (Int × ProtoAttribute))
      (contents : List (String × Proto))

/-- Field `kind_of` of `Proto`. -/
def Proto.kind_of : Proto → KindOf
  | Proto.mk k _ _ => k

/-- Field `attributes` of `Proto` (the tag-indexed map). -/
def Proto.attributes : Proto → List (Int × ProtoAttribute)
  | Proto.mk _ a _ => a

/-- Field `contents` of `Proto` (the name-indexed map of nested nodes). -/
def Proto.contents : Proto → List (String × Proto)
  | Proto.mk _ _ c => c

/-- `Proto::new(kind_of)`: the given kind with two empty `HashMap::new()` maps. -/
def Proto.new (k : KindOf) : Proto := Proto.mk k [] []

/-- `p.attributes.insert(tag, a)` on the public field of `Proto`. -/
def Proto.insertAttribute (p : Proto) (tag : Int) (a : ProtoAttribute) : Proto :=
  Proto.mk p.kind_of (mapInsert tag a p.attributes) p.contents

/-- `p.attributes.get(&tag)` on the public field of `Proto`. -/
def Proto.lookupAttribute (p : Proto) (tag : Int) : Option ProtoAttribute :=
  mapGet tag p.attributes

/-- `p.contents.insert(name, d)` on the public field of `Proto`. -/
def Proto.insertContent (p : Proto) (name : String) (d : Proto) : Proto :=
  Proto.mk p.kind_of p.attributes (mapInsert name d p.contents)

/-- `p.contents.get(&name)` on the public field of `Proto`. -/
def Proto.lookupContent (p : Proto) (name : String) : Option Proto :=
  mapGet name p.contents

/-- `#[derive(Clone)]` on `Proto`: a deep copy, i.e. a fresh value equal to
the original and sharing no storage with it. -/
def Proto.clone (p : Proto) : Proto := p

/-! ### Association-list map lemmas -/

theorem mapGet_mapInsert_same {κ α : Type} [DecidableEq κ] (k : κ) (v : α)
    (m : List (κ × α)) : mapGet k (mapInsert k v m) = some v := by
  induction m with
  | nil => simp [mapInsert, mapGet]
  | cons hd tl ih =>
      obtain ⟨k2, v2⟩ := hd
      by_cases h : k2 = k <;> simp [mapInsert, mapGet, h, ih]

theorem mapGet_mapInsert_other {κ α : Type} [DecidableEq κ] (k k3 : κ) (v : α)
    (m : List (κ × α)) (h : k3 ≠ k) :
    mapGet k3 (mapInsert k v m) = mapGet k3 m := by
  induction m with
  | nil => simp [mapInsert, mapGet, Ne.symm h]
  | cons hd tl ih =>
      obtain ⟨k2, v2⟩ := hd
      by_cases h2 : k2 = k
      · subst h2
        simp [mapInsert, mapGet, Ne.symm h]
      · simp only [mapInsert, if_neg h2]
        by_cases h3 : k2 = k3
        · simp [mapGet, h3]
        · simp [mapGet, h3, ih]

theorem mapGet_eq_none_of_not_mem {κ α : Type} [DecidableEq κ] (k : κ)
    (m : List (κ × α)) (h : k ∉ m.map Prod.fst) : mapGet k m = none := by
  induction m with
  | nil => rfl
  | cons hd tl ih =>
      obtain ⟨k2, v2⟩ := hd
      simp only [List.map_cons, List.mem_cons] at h
      push_neg at h
      simp [mapGet, Ne.symm h.1, ih h.2]

/-! ### Concrete values used to instantiate the general theorems -/

/-- The attribute `optional string email = 1;` from the source's worked example. -/
def attrEmail : ProtoAttribute := ⟨ ProtoAnnotation.Optional, "email", "string"⟩

/-- The attribute `string city = 3;` from the source's worked example. -/
def attrCity : ProtoAttribute := ⟨ ProtoAnnotation.Optional, "city", "string"⟩

/-- The name of the nested one-of definition in the source's worked example. -/
def nameAddress : String := "Address"

/-- A name that is bound in no map of the examples. -/
def nameAnything : String := "Anything"

/-- The one-of node `Address` of the source's worked example. -/
def protoAddress : Proto := (Proto.new KindOf.OneOf).insertAttribute 3 attrCity

/-- The message node `Person` of the source's worked example. -/
def protoPerson : Proto :=
  (((Proto.new KindOf.Message).insertAttribute 1 attrEmail).insertContent
    nameAddress protoAddress)

/-- A mutation a loader might apply to its retained copy of a child node. -/
def mutateKind (q : Proto) : Proto := Proto.mk KindOf.Enum q.attributes q.contents

/-- A non-keyword token: a case variant of a recognized keyword. -/
def strRepeatedCapitalized : String := "Repeated"

/-! ### Claims -/

/-- Claim C1: inserting attribute A and then attribute B at the same tag t
makes lookup at t return B (last write wins, no duplicate-tag error is
raised), and lookup at every other tag t2 returns exactly what it returned
before the two insertions. -/
theorem C1_insertAttribute_last_write_wins (p : Proto) (t t2 : Int)
    (A B : ProtoAttribute) (h : t2 ≠ t) :
    ((p.insertAttribute t A).insertAttribute t B).lookupAttribute t = some B ∧
    ((p.insertAttribute t A).insertAttribute t B).lookupAttribute t2 =
      p.lookupAttribute t2 := by
  constructor
  · simp [Proto.insertAttribute, Proto.lookupAttribute, Proto.attributes,
      mapGet_mapInsert_same]
  · simp [Proto.insertAttribute, Proto.lookupAttribute, Proto.attributes,
      mapGet_mapInsert_other _ _ _ _ h]

/-- Claim C1 instantiated on the empty message node with tags 5 and 3. -/
theorem C1_witness :
    (3 : Int) ≠ 5 ∧
    ((((Proto.new KindOf.Message).insertAttribute 5 attrEmail).insertAttribute
        5 attrCity).lookupAttribute 5 = some attrCity ∧
     (((Proto.new KindOf.Message).insertAttribute 5 attrEmail).insertAttribute
        5 attrCity).lookupAttribute 3 =
       (Proto.new KindOf.Message).lookupAttribute 3) :=
  ⟨ by decide,
    C1_insertAttribute_last_write_wins (Proto.new KindOf.Message) 5 3
      attrEmail attrCity (by decide)⟩

/-- Claim C2: `from_str` maps exactly the four literal keywords to the four
variants, and every other string (case variants and padded strings included)
to the payload-free marker error; no trimming or case folding happens. -/
theorem C2_fromStr_exact_keywords (s : String) :
     ProtoAnnotation.fromStr (r"optional") = Except.ok ProtoAnnotation.Optional ∧
     ProtoAnnotation.fromStr (r"repeated") = Except.ok ProtoAnnotation.Repeated ∧
     ProtoAnnotation.fromStr (r"required") = Except.ok ProtoAnnotation.Required ∧
     ProtoAnnotation.fromStr (r"map") = Except.ok ProtoAnnotation.Map ∧
    (s ≠ "optional" → s ≠ "repeated" → s ≠ "required" → s ≠ "map" →
      ProtoAnnotation.fromStr s = Except.error ParseProtoAnnotationError.mk) := by
  refine ⟨ rfl, rfl, rfl, rfl, ?_⟩
  intro h1 h2 h3 h4
  simp [ ProtoAnnotation.fromStr, h1, h2, h3, h4]

/-- Claim C2 instantiated on the case variant of a keyword. -/
theorem C2_witness :
    (strRepeatedCapitalized ≠ "optional" ∧ strRepeatedCapitalized ≠ "repeated" ∧
     strRepeatedCapitalized ≠ "required" ∧ strRepeatedCapitalized ≠ "map") ∧
     ProtoAnnotation.fromStr strRepeatedCapitalized =
      Except.error ParseProtoAnnotationError.mk :=
  ⟨ ⟨ by decide, by decide, by decide, by decide⟩,
    (C2_fromStr_exact_keywords strRepeatedCapitalized).2.2.2.2 (by decide)
      (by decide) (by decide) (by decide)⟩

/-- Claim C3: `Proto::new(kind)` yields a node of the given kind whose
attribute and content maps are empty, so every tag and every name looks up
to the absent value. -/
theorem C3_new_empty (k : KindOf) (tag : Int) (name : String) :
    (Proto.new k).kind_of = k ∧
    (Proto.new k).attributes = [] ∧
    (Proto.new k).contents = [] ∧
    (Proto.new k).lookupAttribute tag = none ∧
    (Proto.new k).lookupContent name = none :=
  ⟨ rfl, rfl, rfl, rfl, rfl⟩

/-- Claim C4: looking up a tag or a name that is absent from the
corresponding map returns the explicit absent value `none`; the lookup
operations are total functions, so no crash or abort is possible. -/
theorem C4_lookup_miss_absent (p : Proto) (tag : Int) (name : String)
    (h1 : tag ∉ p.attributes.map Prod.fst)
    (h2 : name ∉ p.contents.map Prod.fst) :
    p.lookupAttribute tag = none ∧ p.lookupContent name = none :=
  ⟨ mapGet_eq_none_of_not_mem tag p.attributes h1,
    mapGet_eq_none_of_not_mem name p.contents h2⟩

/-- Claim C4 instantiated on the populated `Person` node with an unbound tag
and an unbound name. -/
theorem C4_witness :
    ((2 : Int) ∉ protoPerson.attributes.map Prod.fst) ∧
    (nameAnything ∉ protoPerson.contents.map Prod.fst) ∧
    (protoPerson.lookupAttribute 2 = none ∧
     protoPerson.lookupContent nameAnything = none) :=
  ⟨ by decide, by decide,
    C4_lookup_miss_absent protoPerson 2 nameAnything (by decide) (by decide)⟩

/-- Claim C5: after `insertContent(n, d)`, looking up n returns a node whose
kind, attributes and contents exactly equal d's at insertion time, and a
mutation g applied to an external clone of d afterwards does not change the
stored child: whenever the mutated copy differs from d, the stored child is
still d and is not the mutated copy (no aliasing). -/
theorem C5_insertContent_no_aliasing (p : Proto) (n : String) (d : Proto)
    (g : Proto → Proto) (h : g (Proto.clone d) ≠ d) :
    (p.insertContent n d).lookupContent n = some d ∧
    (∀ q, (p.insertContent n d).lookupContent n = some q →
      q.kind_of = d.kind_of ∧ q.attributes = d.attributes ∧
        q.contents = d.contents) ∧
    (p.insertContent n d).lookupContent n ≠ some (g (Proto.clone d)) := by
  have hl : (p.insertContent n d).lookupContent n = some d := by
    simp [Proto.insertContent, Proto.lookupContent, Proto.contents,
      mapGet_mapInsert_same]
  refine ⟨ hl, ?_, ?_⟩
  · intro q hq
    rw [hl] at hq
    cases hq
    exact ⟨ rfl, rfl, rfl⟩
  · intro hc
    rw [hl] at hc
    have hde : d = g (Proto.clone d) := by injection hc
    exact h hde.symm

/-- Claim C5 instantiated: the `Address` node is inserted into `Person`, and
the loader's retained clone is then mutated to an enum node. -/
theorem C5_witness :
    mutateKind (Proto.clone protoAddress) ≠ protoAddress ∧
    ((protoPerson.insertContent nameAddress protoAddress).lookupContent
        nameAddress = some protoAddress ∧
     (protoPerson.insertContent nameAddress protoAddress).lookupContent
        nameAddress ≠ some (mutateKind (Proto.clone protoAddress))) := by
  have hx : mutateKind (Proto.clone protoAddress) ≠ protoAddress := by
    intro he
    exact absurd (congrArg Proto.kind_of he) (by decide)
  exact ⟨ hx,
    (C5_insertContent_no_aliasing protoPerson nameAddress protoAddress
      mutateKind hx).1,
    (C5_insertContent_no_aliasing protoPerson nameAddress protoAddress
      mutateKind hx).2.2⟩

/-- Claim C6: `ProtoAttribute::new()` is the zero-value attribute: Optional
multiplicity, empty name, empty type; the constructor validates nothing. -/
theorem C6_protoAttribute_new_zero :
     ProtoAttribute.annotation ProtoAttribute.new = ProtoAnnotation.Optional ∧
     ProtoAttribute.attribute_name ProtoAttribute.new = "" ∧
     ProtoAttribute.attribute_type ProtoAttribute.new = "" :=
  ⟨ rfl, rfl, rfl⟩

/-- Claim C7: the default-constructed multiplicity value (the `#[default]`
marker in the source) equals the Optional variant. -/
theorem C7_default_is_Optional :
     ProtoAnnotation.rsDefault = ProtoAnnotation.Optional := rfl

/-- Claim C9: the explicit zero-value constructor returns a value equal,
field by field, to the derived default. -/
theorem C9_new_eq_derivedDefault :
    ProtoAttribute.new = ProtoAttribute.derivedDefault ∧
     ProtoAttribute.annotation ProtoAttribute.new =
       ProtoAttribute.annotation ProtoAttribute.derivedDefault ∧
     ProtoAttribute.attribute_name ProtoAttribute.new =
       ProtoAttribute.attribute_name ProtoAttribute.derivedDefault ∧
     ProtoAttribute.attribute_type ProtoAttribute.new =
       ProtoAttribute.attribute_type ProtoAttribute.derivedDefault :=
  ⟨ rfl, rfl, rfl, rfl⟩

end ONNXInterp
